import Mathlib

/-!
Verification development for the doffin procurement-notice scraper
(module mcp_doffin.py).  The HTML and JSON parsing libraries are external
collaborators: a parsed page is modelled as a record of the query results
the code reads from the parser (selector hits, attribute values, stripped
text, json.loads outcomes).  Python dictionaries are modelled as ordered
association lists with in-place update, Python truthiness is modelled
explicitly, and Python string slicing is character based.
-/

/-- The fixed site base URL, constant BASE of the module. -/
def BASE : String := "https://doffin.no"

/-- Python truthiness of an optional string: None and the empty string are
falsy, every other string is truthy. -/
def pyTruthyOptStr : Option String → Bool
  | Option.none => false
  | Option.some s => s ≠ ""

/-- Model of the Python method str.startswith: list-level prefix test on the
character data. -/
def pyStartswith (s pre : String) : Bool := List.isPrefixOf pre.data s.data

/-- Character-level scan keeping the segment after the last slash. -/
def lastSegmentData : List Char → List Char → List Char
  | [], acc => acc.reverse
  | c :: rest, acc =>
      if c = '/' then lastSegmentData rest [] else lastSegmentData rest (c :: acc)

/-- Model of Python s.rsplit("/", 1)[-1]: the substring after the last slash,
or the whole string when no slash occurs. -/
def lastSegment (s : String) : String := ⟨lastSegmentData s.data []⟩

/-- Model of Python character-based slicing s[:n]. -/
def pySlice (s : String) (n : Nat) : String := ⟨s.data.take n⟩

/-! ## URL builder: build_search_url -/

/-- The search-parameter record accepted by build_search_url.  Absent keys of
the Python dict are modelled as none. -/
structure SearchParams where
  q : Option String := none
  cpv : Option (List String) := none
  buyer : Option String := none
  published_from : Option String := none
  published_to : Option String := none
  deadline_to : Option String := none
  county : Option String := none
  procedure : Option String := none
  page : Option Int := none

/-- One optional string-valued query entry: contributes its key only when the
value is truthy, mirroring the if p.get(...) guards. -/
def strParam (key : String) (v : Option String) : List (String × String) :=
  match v with
  | Option.some s => if s ≠ "" then [(key, s)] else []
  | Option.none => []

/-- The cpv entry: a truthy (non-empty) list is comma-joined into one value. -/
def cpvParam (v : Option (List String)) : List (String × String) :=
  match v with
  | Option.some l => if l ≠ [] then [("cpvCodesLabel", String.intercalate "," l)] else []
  | Option.none => []

/-- The page entry: included only when the value is truthy (nonzero) and
strictly greater than 1, mirroring if (page := p.get("page")) and page > 1. -/
def pageParam (v : Option Int) : List (String × String) :=
  match v with
  | Option.some n => if n ≠ 0 ∧ n > 1 then [("page", toString n)] else []
  | Option.none => []

/-- The ordered query dictionary assembled by build_search_url. -/
def buildSearchQs (p : SearchParams) : List (String × String) :=
  strParam "query" p.q ++ cpvParam p.cpv ++ strParam "buyer" p.buyer
    ++ strParam "publishedFrom" p.published_from ++ strParam "publishedTo" p.published_to
    ++ strParam "deadlineTo" p.deadline_to ++ strParam "county" p.county
    ++ strParam "procedure" p.procedure ++ pageParam p.page

/-- UTF-8 bytes of a character, for percent encoding. -/
def utf8Bytes (c : Char) : List Nat :=
  let n := c.toNat
  if n < 0x80 then [n]
  else if n < 0x800 then [0xC0 + n / 0x40, 0x80 + n % 0x40]
  else if n < 0x10000 then [0xE0 + n / 0x1000, 0x80 + (n / 0x40) % 0x40, 0x80 + n % 0x40]
  else [0xF0 + n / 0x40000, 0x80 + (n / 0x1000) % 0x40, 0x80 + (n / 0x40) % 0x40, 0x80 + n % 0x40]

/-- Uppercase hexadecimal digit. -/
def hexDigit (n : Nat) : Char :=
  if n < 10 then Char.ofNat (48 + n) else Char.ofNat (55 + n)

/-- Characters kept verbatim by urllib quote_plus. -/
def isUrlSafe (c : Char) : Bool :=
  c.isAlphanum || c = '_' || c = '.' || c = '-' || c = '~'

/-- Model of urllib quote_plus on one string. -/
def quotePlus (s : String) : String :=
  s.data.foldl
    (fun acc c =>
      if c = ' ' then acc.push '+'
      else if isUrlSafe c then acc.push c
      else (utf8Bytes c).foldl
        (fun a b => ((a.push '%').push (hexDigit (b / 16))).push (hexDigit (b % 16))) acc)
    ""

/-- Model of urllib urlencode on an ordered key-value list. -/
def urlencode (qs : List (String × String)) : String :=
  String.intercalate "&" (qs.map (fun kv => quotePlus kv.1 ++ "=" ++ quotePlus kv.2))

/-- build_search_url: the query dictionary rendered against the fixed search
endpoint. -/
def build_search_url (p : SearchParams) : String :=
  BASE ++ "/search?" ++ urlencode (buildSearchQs p)

lemma strParam_key_mem {key : String} {v : Option String} {kv : String × String}
    (h : kv ∈ strParam key v) : kv.1 = key := by
  unfold strParam at h
  cases v with
  | none => simp at h
  | some s =>
    by_cases hs : s ≠ "" <;> simp [hs] at h
    simp [h]

lemma cpvParam_key_mem {v : Option (List String)} {kv : String × String}
    (h : kv ∈ cpvParam v) : kv.1 = "cpvCodesLabel" := by
  unfold cpvParam at h
  cases v with
  | none => simp at h
  | some l =>
    by_cases hl : l ≠ [] <;> simp [hl] at h
    simp [h]

lemma pageParam_key_mem {v : Option Int} {kv : String × String}
    (h : kv ∈ pageParam v) : kv.1 = "page" := by
  unfold pageParam at h
  cases v with
  | none => simp at h
  | some n =>
    by_cases hn : n ≠ 0 ∧ n > 1 <;> simp [hn] at h
    simp [h]

lemma pageParam_mem_iff {v : Option Int} :
    (∃ s, ("page", s) ∈ pageParam v) ↔ ∃ n : Int, v = some n ∧ n > 1 := by
  cases v with
  | none => simp [pageParam]
  | some n =>
    by_cases hn : n ≠ 0 ∧ n > 1
    · simp only [pageParam, if_pos hn]
      constructor
      · intro _; exact ⟨n, rfl, hn.2⟩
      · intro _; exact ⟨toString n, by simp⟩
    · simp only [pageParam, if_neg hn]
      constructor
      · intro h; simp at h
      · rintro ⟨m, hm, hm1⟩
        cases Option.some.inj hm
        exact absurd ⟨by omega, hm1⟩ hn

/-- C9: the built URL is the fixed search endpoint with the encoded query
dictionary; that dictionary has a "page" key exactly when the page field is a
value strictly greater than 1 (so page absent or equal to 1 contributes no
page key), and the entry then carries the rendered value. -/
theorem C9_page_key (p : SearchParams) :
    build_search_url p = BASE ++ "/search?" ++ urlencode (buildSearchQs p) ∧
    ((∃ s, ("page", s) ∈ buildSearchQs p) ↔ ∃ n : Int, p.page = some n ∧ n > 1) ∧
    (∀ n : Int, p.page = some n → n > 1 → ("page", toString n) ∈ buildSearchQs p) := by
  refine ⟨rfl, ?_, ?_⟩
  · constructor
    · rintro ⟨s, hs⟩
      rw [← pageParam_mem_iff]
      refine ⟨s, ?_⟩
      simp only [buildSearchQs, List.mem_append] at hs
      rcases hs with ((((((((h | h) | h) | h) | h) | h) | h) | h) | h)
      · have := strParam_key_mem h; simp at this
      · have := cpvParam_key_mem h; simp at this
      · have := strParam_key_mem h; simp at this
      · have := strParam_key_mem h; simp at this
      · have := strParam_key_mem h; simp at this
      · have := strParam_key_mem h; simp at this
      · have := strParam_key_mem h; simp at this
      · have := strParam_key_mem h; simp at this
      · exact h
    · rintro ⟨n, hn, hn1⟩
      have hmem : ("page", toString n) ∈ pageParam p.page := by
        rw [hn]
        simp only [pageParam]
        rw [if_pos ⟨by omega, hn1⟩]
        simp
      exact ⟨toString n, by simp only [buildSearchQs, List.mem_append]; tauto⟩
  · intro n hn hn1
    have : ("page", toString n) ∈ pageParam p.page := by
      rw [hn]
      simp only [pageParam]
      rw [if_pos ⟨by omega, hn1⟩]
      simp
    simp only [buildSearchQs, List.mem_append]
    tauto

/-- Witness for C9 at a concrete parameter set with page 3. -/
theorem C9_page_key_witness :
    ("page", toString (3 : Int)) ∈ buildSearchQs { page := some 3 } :=
  (C9_page_key { page := some 3 }).2.2 3 rfl (by norm_num)

/-! ## Search-result extractor: parse_search

A card is the slice of one matched card element that parse_search reads
through the HTML parser.  The local helper txt returns the stripped text of
the first match of a selector, and the empty string when nothing matches, so
those fields are plain strings.  The anchor field carries the first match of
the selector a[href containing /notices/] as its href value and stripped
text. -/

structure Card where
  noticeTitleText : String := ""
  headingText : String := ""
  linkAnchor : Option (String × String) := none
  buyerText : String := ""
  publishedTime : Option String := none
  publishedText : String := ""
  deadlineTime : Option String := none
  deadlineText : String := ""
  cpvTags : List String := []
deriving DecidableEq

/-- Python or on strings: the first operand when truthy, else the second. -/
def pyOrS (a b : String) : String := if a ≠ "" then a else b

/-- Title cascade of parse_search: dedicated title element, else heading,
else the text of the detail link when one exists. -/
def cardTitle (c : Card) : String :=
  let t := pyOrS c.noticeTitleText c.headingText
  if t = "" then
    match c.linkAnchor with
    | Option.some a => a.2
    | Option.none => t
  else t

/-- Link resolution of parse_search: the href of the detail link, prefixed
with the site base when truthy and not starting with http. -/
def cardLink (c : Card) : Option String :=
  match c.linkAnchor with
  | Option.some a =>
      Option.some (if a.1 ≠ "" ∧ ¬ pyStartswith a.1 "http" then BASE ++ a.1 else a.1)
  | Option.none => Option.none

/-- Published and deadline cells: the machine-readable datetime attribute of
the matched time element when present, else the visible-text fallback. -/
def cardTimeRaw (attr : Option String) (text : String) : String :=
  match attr with
  | Option.some d => d
  | Option.none => text

/-- An emitted search summary, the dict appended by parse_search. -/
structure NoticeSummary where
  notice_id : String
  title : String
  buyer : Option String
  published_at : Option String
  deadline_at : Option String
  cpv : List String
  link : String
deriving DecidableEq

/-- The value x or None pattern on strings. -/
def strOrNone (s : String) : Option String := if s ≠ "" then Option.some s else Option.none

/-- The summary dict appended for a card whose resolved link is l. -/
def mkSummary (c : Card) (l : String) : NoticeSummary :=
  { notice_id := lastSegment l
    title := cardTitle c
    buyer := strOrNone c.buyerText
    published_at := strOrNone (cardTimeRaw c.publishedTime c.publishedText)
    deadline_at := strOrNone (cardTimeRaw c.deadlineTime c.deadlineText)
    cpv := c.cpvTags
    link := l }

/-- Processing of one card: the summary appended when link and title are both
truthy, nothing otherwise. -/
def processCard (c : Card) : Option NoticeSummary :=
  match cardLink c with
  | Option.some l =>
      if l ≠ "" ∧ cardTitle c ≠ "" then Option.some (mkSummary c l) else Option.none
  | Option.none => Option.none

/-- parse_search over the document-ordered list of matched cards. -/
def parse_search (cards : List Card) : List NoticeSummary :=
  cards.filterMap processCard

lemma pyStartswith_append (a b : String) : pyStartswith (a ++ b) a = true := by
  simp only [pyStartswith, String.data_append, List.isPrefixOf_iff_prefix]
  exact ⟨b.data, rfl⟩

lemma processCard_link {c : Card} {item : NoticeSummary}
    (h : processCard c = Option.some item) :
    item.notice_id = lastSegment item.link ∧ item.link ≠ "" ∧
    ∃ href text, c.linkAnchor = Option.some (href, text) ∧
      item.link = (if href ≠ "" ∧ ¬ pyStartswith href "http" then BASE ++ href else href) := by
  unfold processCard at h
  cases hl : cardLink c with
  | none => rw [hl] at h; simp at h
  | some l =>
    rw [hl] at h
    simp only [] at h
    by_cases hc : l ≠ "" ∧ cardTitle c ≠ ""
    · rw [if_pos hc] at h
      cases Option.some.inj h
      unfold cardLink at hl
      cases ha : c.linkAnchor with
      | none => rw [ha] at hl; simp at hl
      | some a =>
        rw [ha] at hl
        simp only [Option.some.injEq] at hl
        exact ⟨rfl, hc.1, a.1, a.2, rfl, hl.symm⟩
    · rw [if_neg hc] at h; simp at h

/-- C2 (amended): every emitted summary has a non-empty link equal to the
href of the detail link of some input card, prefixed with the site base when
that href is truthy and relative (not starting with http); when the href is
not http-prefixed the link starts with the site base, and notice_id always
equals the final slash-delimited segment of the link. -/
theorem C2_link_invariant (cards : List Card) (item : NoticeSummary)
    (h : item ∈ parse_search cards) :
    item.notice_id = lastSegment item.link ∧ item.link ≠ "" ∧
    ∃ c ∈ cards, ∃ href text, c.linkAnchor = Option.some (href, text) ∧
      item.link = (if href ≠ "" ∧ ¬ pyStartswith href "http" then BASE ++ href else href) ∧
      (pyStartswith href "http" = false → pyStartswith item.link BASE = true) := by
  unfold parse_search at h
  rw [List.mem_filterMap] at h
  obtain ⟨c, hc, hp⟩ := h
  obtain ⟨hid, hne, href, text, ha, hlink⟩ := processCard_link hp
  refine ⟨hid, hne, c, hc, href, text, ha, hlink, ?_⟩
  intro hrel
  by_cases hh : href ≠ ""
  · rw [hlink, if_pos ⟨hh, by simp [hrel]⟩]
    exact pyStartswith_append BASE href
  · exfalso
    apply hne
    rw [hlink]
    simp only [ne_eq, not_not] at hh
    simp [hh]

/-- A concrete card with a relative detail link, for the C2 witness. -/
def c2CardRel : Card :=
  { noticeTitleText := "T", linkAnchor := Option.some ("/notices/777", "View") }

/-- The summary emitted for c2CardRel. -/
def c2Item : NoticeSummary :=
  { notice_id := "777", title := "T", buyer := Option.none,
    published_at := Option.none, deadline_at := Option.none, cpv := [],
    link := "https://doffin.no/notices/777" }

/-- A concrete card whose detail link is absolute on another host, for the C2
counterexample. -/
def c2CardAbs : Card :=
  { noticeTitleText := "T",
    linkAnchor := Option.some ("http://evil.example/notices/9", "View") }

/-- Witness for C2 at a concrete card with a relative detail link. -/
theorem C2_link_invariant_witness :
    c2Item.notice_id = lastSegment c2Item.link ∧ c2Item.link ≠ "" := by
  have he : parse_search [c2CardRel] = [c2Item] := by decide
  have h : c2Item ∈ parse_search [c2CardRel] := by
    rw [he]; exact List.mem_singleton.mpr rfl
  obtain ⟨h1, h2, -⟩ := C2_link_invariant [c2CardRel] c2Item h
  exact ⟨h1, h2⟩

/-- Counterexample for C2 as stated: a card whose detail link is an absolute
URL on another host is emitted verbatim, so its non-empty link does not start
with the site base. -/
theorem C2_counterexample :
    ¬ (∀ item ∈ parse_search [c2CardAbs],
        item.link ≠ "" → pyStartswith item.link BASE = true) := by
  decide

lemma processCard_isSome_iff (c : Card) :
    (processCard c).isSome ↔ (pyTruthyOptStr (cardLink c) = true ∧ cardTitle c ≠ "") := by
  unfold processCard
  cases hl : cardLink c with
  | none => simp [pyTruthyOptStr]
  | some l =>
    by_cases hc : l ≠ "" ∧ cardTitle c ≠ ""
    · simp [hc, pyTruthyOptStr, hc.1, hc.2]
    · simp only [if_neg hc, Option.isSome_none, Bool.false_eq_true, false_iff, not_and]
      intro hp ht
      simp only [pyTruthyOptStr, ne_eq, decide_not] at hp
      exact hc ⟨by simpa using hp, ht⟩

lemma processCard_some_title {c : Card} {item : NoticeSummary}
    (h : processCard c = Option.some item) : item.title = cardTitle c := by
  unfold processCard at h
  cases hl : cardLink c with
  | none => rw [hl] at h; simp at h
  | some l =>
    rw [hl] at h
    by_cases hc : l ≠ "" ∧ cardTitle c ≠ ""
    · simp only [if_pos hc] at h
      cases Option.some.inj h
      rfl
    · simp only [if_neg hc] at h; simp at h

lemma cardTitle_of_link_fallback {c : Card} (h1 : c.noticeTitleText = "")
    (h2 : c.headingText = "") {href text : String}
    (ha : c.linkAnchor = Option.some (href, text)) : cardTitle c = text := by
  simp [cardTitle, pyOrS, h1, h2, ha]

/-- C5: a card is emitted exactly when its resolved link and resolved title
are both truthy; with no dedicated title text and no heading text the
resolved title is the text of the detail link, so such a card with a truthy
link and non-empty link text is emitted with that text as title; and
parse_search emits per card exactly what processCard yields. -/
theorem C5_card_inclusion (c : Card) :
    ((processCard c).isSome ↔ (pyTruthyOptStr (cardLink c) = true ∧ cardTitle c ≠ "")) ∧
    (c.noticeTitleText = "" → c.headingText = "" →
      ∀ href text, c.linkAnchor = Option.some (href, text) → cardTitle c = text) ∧
    (∀ href text, c.linkAnchor = Option.some (href, text) →
      c.noticeTitleText = "" → c.headingText = "" → text ≠ "" →
      pyTruthyOptStr (cardLink c) = true →
      ∃ item, processCard c = Option.some item ∧ item.title = text) ∧
    parse_search [c] = (processCard c).toList := by
  refine ⟨processCard_isSome_iff c, ?_, ?_, ?_⟩
  · intro h1 h2 href text ha
    exact cardTitle_of_link_fallback h1 h2 ha
  · intro href text ha h1 h2 htext hlink
    have htitle : cardTitle c = text := cardTitle_of_link_fallback h1 h2 ha
    have hsome : (processCard c).isSome := by
      rw [processCard_isSome_iff]
      exact ⟨hlink, by rw [htitle]; exact htext⟩
    obtain ⟨item, hitem⟩ := Option.isSome_iff_exists.mp hsome
    refine ⟨item, hitem, ?_⟩
    rw [processCard_some_title hitem, htitle]
  · simp only [parse_search, List.filterMap]
    cases processCard c <;> rfl

/-- A card with a detail link and no title or heading text, for the C5
witness. -/
def c5Card : Card := { linkAnchor := Option.some ("/notices/5", "Link Text") }

/-- Witness for C5: the fallback card is emitted and its resolved title is
the link text. -/
theorem C5_card_inclusion_witness :
    (processCard c5Card).isSome = true ∧ cardTitle c5Card = "Link Text" := by
  have h := C5_card_inclusion c5Card
  have htitle : cardTitle c5Card = "Link Text" :=
    h.2.1 rfl rfl "/notices/5" "Link Text" rfl
  have hsome : (processCard c5Card).isSome :=
    (h.1).mpr ⟨by decide, by rw [htitle]; decide⟩
  exact ⟨hsome, htitle⟩

/-! ## Notice extractor: parse_notice

Python values flowing through the result dict of parse_notice.  json.loads
output, selector text and the lists built by the code all live in this type.
The result dict is an ordered association list with in-place overwrite, the
semantics of a Python dict under assignment and update. -/

inductive PyVal where
  | none
  | str (s : String)
  | int (n : Int)
  | bool (b : Bool)
  | list (xs : List PyVal)
  | dict (kvs : List (String × PyVal))

/-- Python truthiness of a value. -/
def pyTruthy : PyVal → Bool
  | PyVal.none => false
  | PyVal.str s => s ≠ ""
  | PyVal.int n => n ≠ 0
  | PyVal.bool b => b
  | PyVal.list xs => ¬ xs.isEmpty
  | PyVal.dict kvs => ¬ kvs.isEmpty

/-- A Python dict with string keys. -/
abbrev PyDict := List (String × PyVal)

/-- Dict lookup, d.get(k). -/
def dictGet : PyDict → String → Option PyVal
  | [], _ => Option.none
  | (k, v) :: rest, key => if k = key then Option.some v else dictGet rest key

/-- Dict assignment d[k] = v: overwrite in place, else append. -/
def dictSet : PyDict → String → PyVal → PyDict
  | [], key, v => [(key, v)]
  | (k, w) :: rest, key, v =>
      if k = key then (k, v) :: rest else (k, w) :: dictSet rest key v

/-- d.update(j): assign every entry of j in order. -/
def dictUpdate (d : PyDict) (j : PyDict) : PyDict :=
  j.foldl (fun acc kv => dictSet acc kv.1 kv.2) d

/-- d.get(k) with the Python default None. -/
def pyGetD (d : PyDict) (k : String) : PyVal := (dictGet d k).getD PyVal.none

/-- The value of a txt call of parse_notice: stripped text of the first
match, or None when the selector matches nothing. -/
def optTxtVal : Option String → PyVal
  | Option.some s => PyVal.str s
  | Option.none => PyVal.none

/-- Python or on values: the first operand when truthy, else the second. -/
def pyOrV (a b : PyVal) : PyVal := if pyTruthy a then a else b

/-- The slice of a parsed notice page that parse_notice reads through the
HTML parser.  ldBlocks lists the json.loads outcome of each structured-data
script block in document order, none standing for a block whose parse
raised.  The string fields are the txt results of the respective selector
cascades, the time fields the datetime attributes of the matched time
elements, attachmentAnchors the href and stripped text of each matched
attachment anchor, and bodyText the body text when a body element exists. -/
structure NoticeDoc where
  ldBlocks : List (Option PyVal) := []
  h1 : Option String := none
  titleAttr : Option String := none
  buyerSel : Option String := none
  descriptionSel : Option String := none
  publishedTime : Option String := none
  publishedSel : Option String := none
  deadlineTime : Option String := none
  deadlineSel : Option String := none
  cpvTags : List String := []
  attachmentAnchors : List (String × String) := []
  bodyText : Option String := none

/-- Merge of one structured-data block: a successfully parsed dict-shaped
value is update-merged, everything else (parse failure or non-dict value) is
ignored. -/
def ldMergeOne (acc : PyDict) (b : Option PyVal) : PyDict :=
  match b with
  | Option.some (PyVal.dict kvs) => dictUpdate acc kvs
  | _ => acc

/-- The JSON-LD pass of parse_notice over all script blocks. -/
def ldMerge (blocks : List (Option PyVal)) (d : PyDict) : PyDict :=
  blocks.foldl ldMergeOne d

/-- The result dict after initialization with source_url and the JSON-LD
merge pass, before any HTML-derived fallback. -/
def ldOut (doc : NoticeDoc) (url : String) : PyDict :=
  ldMerge doc.ldBlocks [("source_url", PyVal.str url)]

/-- HTML title cascade: h1 text, else the title test-attribute element. -/
def htmlTitle (doc : NoticeDoc) : PyVal :=
  pyOrV (optTxtVal doc.h1) (optTxtVal doc.titleAttr)

/-- HTML published cascade: datetime attribute of the matched time element,
else the visible-text fallback selector. -/
def htmlTime (attr : Option String) (sel : Option String) : PyVal :=
  match attr with
  | Option.some d => PyVal.str d
  | Option.none => optTxtVal sel

/-- The attachment list: each anchor href is prefixed with the site base
when truthy and relative, and an entry is kept when the href is truthy. -/
def noticeAttachments (anchors : List (String × String)) : List PyVal :=
  anchors.filterMap (fun a =>
    let href := if a.1 ≠ "" ∧ ¬ pyStartswith a.1 "http" then BASE ++ a.1 else a.1
    if href ≠ "" then
      Option.some (PyVal.dict [("name", PyVal.str a.2), ("url", PyVal.str href)])
    else Option.none)

/-- The HTML-fallback phase of parse_notice, applied to the dict left by the
initialization and JSON-LD merge: fallback cascades for the six modelled
fields, attachments, and the truncated raw-content capture. -/
def htmlPhase (html : String) (doc : NoticeDoc) (out0 : PyDict) : PyDict :=
  let out1 := dictSet out0 "title" (pyOrV (pyGetD out0 "title") (htmlTitle doc))
  let out2 := dictSet out1 "buyer" (pyOrV (pyGetD out1 "buyer") (optTxtVal doc.buyerSel))
  let out3 := dictSet out2 "description"
    (pyOrV (pyGetD out2 "description") (optTxtVal doc.descriptionSel))
  let out4 := dictSet out3 "published_at"
    (pyOrV (pyGetD out3 "published_at") (htmlTime doc.publishedTime doc.publishedSel))
  let out5 := dictSet out4 "deadline_at"
    (pyOrV (pyGetD out4 "deadline_at") (htmlTime doc.deadlineTime doc.deadlineSel))
  let out6 :=
    if pyTruthy (pyGetD out5 "cpv") then out5
    else dictSet out5 "cpv" (PyVal.list (doc.cpvTags.map PyVal.str))
  let out7 := dictSet out6 "attachments" (PyVal.list (noticeAttachments doc.attachmentAnchors))
  dictSet out7 "raw_html" (PyVal.str (pySlice (doc.bodyText.getD html) 200000))

/-- parse_notice: source_url initialization, JSON-LD merge pass, then the
HTML-fallback phase. -/
def parse_notice (html : String) (doc : NoticeDoc) (url : String) : PyDict :=
  htmlPhase html doc (ldOut doc url)

/-- String projection of a dict entry, for statements about string fields. -/
def getStr (d : PyDict) (k : String) : Option String :=
  match dictGet d k with
  | Option.some (PyVal.str s) => Option.some s
  | _ => Option.none

lemma dictGet_dictSet_self (d : PyDict) (k : String) (v : PyVal) :
    dictGet (dictSet d k v) k = Option.some v := by
  induction d with
  | nil => simp [dictSet, dictGet]
  | cons hd tl ih =>
    obtain ⟨k1, v1⟩ := hd
    by_cases h : k1 = k
    · simp [dictSet, dictGet, h]
    · simp [dictSet, dictGet, h, ih]

lemma dictGet_dictSet_ne (d : PyDict) {k key : String} (v : PyVal) (h : key ≠ k) :
    dictGet (dictSet d key v) k = dictGet d k := by
  induction d with
  | nil => simp [dictSet, dictGet, h]
  | cons hd tl ih =>
    obtain ⟨k1, v1⟩ := hd
    by_cases h1 : k1 = key
    · subst h1
      simp [dictSet, dictGet, h]
    · by_cases h2 : k1 = k <;> simp [dictSet, dictGet, h1, h2, ih, Ne.symm h]

lemma pyGetD_dictSet_ne (d : PyDict) {k key : String} (v : PyVal) (h : key ≠ k) :
    pyGetD (dictSet d key v) k = pyGetD d k := by
  unfold pyGetD
  rw [dictGet_dictSet_ne d v h]

lemma dictGet_of_pyTruthy {d : PyDict} {k : String} (h : pyTruthy (pyGetD d k) = true) :
    dictGet d k = Option.some (pyGetD d k) := by
  unfold pyGetD at *
  cases hd : dictGet d k with
  | none => rw [hd] at h; simp [pyTruthy] at h
  | some v => rfl

lemma dictGet_dictUpdate_no_key {kvs : PyDict} {k : String}
    (h : ∀ v, (k, v) ∉ kvs) (d : PyDict) :
    dictGet (dictUpdate d kvs) k = dictGet d k := by
  induction kvs generalizing d with
  | nil => rfl
  | cons hd tl ih =>
    obtain ⟨k1, v1⟩ := hd
    have hk1 : k1 ≠ k := by
      intro he
      exact h v1 (by rw [he]; exact List.mem_cons_self _ _)
    have hstep : dictUpdate d ((k1, v1) :: tl) = dictUpdate (dictSet d k1 v1) tl := rfl
    rw [hstep, ih (fun v hv => h v (List.mem_cons_of_mem _ hv)) _,
      dictGet_dictSet_ne _ _ hk1]

lemma dictGet_ldMerge_no_key {blocks : List (Option PyVal)} {k : String}
    (h : ∀ b ∈ blocks, ∀ kvs, b = Option.some (PyVal.dict kvs) → ∀ v, (k, v) ∉ kvs)
    (d : PyDict) : dictGet (ldMerge blocks d) k = dictGet d k := by
  induction blocks generalizing d with
  | nil => rfl
  | cons b tl ih =>
    have hstep : ldMerge (b :: tl) d = ldMerge tl (ldMergeOne d b) := rfl
    rw [hstep, ih (fun x hx => h x (List.mem_cons_of_mem _ hx))]
    cases b with
    | none => rfl
    | some v =>
      cases v with
      | dict kvs =>
        exact dictGet_dictUpdate_no_key (h _ (List.mem_cons_self _ _) kvs rfl) d
      | none => rfl
      | str s => rfl
      | int n => rfl
      | bool b => rfl
      | list xs => rfl

lemma ldMerge_all_none {blocks : List (Option PyVal)}
    (h : ∀ b ∈ blocks, b = Option.none) (d : PyDict) : ldMerge blocks d = d := by
  induction blocks with
  | nil => rfl
  | cons b tl ih =>
    have hb : b = Option.none := h b (List.mem_cons_self _ _)
    have hstep : ldMerge (b :: tl) d = ldMerge tl (ldMergeOne d b) := rfl
    rw [hstep, hb]
    exact ih (fun x hx => h x (List.mem_cons_of_mem _ hx))

lemma htmlPhase_get_stable (html : String) (doc : NoticeDoc) (out0 : PyDict) {k : String}
    (h1 : ("title" : String) ≠ k) (h2 : ("buyer" : String) ≠ k)
    (h3 : ("description" : String) ≠ k) (h4 : ("published_at" : String) ≠ k)
    (h5 : ("deadline_at" : String) ≠ k) (h6 : ("cpv" : String) ≠ k)
    (h7 : ("attachments" : String) ≠ k) (h8 : ("raw_html" : String) ≠ k) :
    dictGet (htmlPhase html doc out0) k = dictGet out0 k := by
  simp only [htmlPhase]
  rw [dictGet_dictSet_ne _ _ h8, dictGet_dictSet_ne _ _ h7]
  split
  · rw [dictGet_dictSet_ne _ _ h5, dictGet_dictSet_ne _ _ h4, dictGet_dictSet_ne _ _ h3,
      dictGet_dictSet_ne _ _ h2, dictGet_dictSet_ne _ _ h1]
  · rw [dictGet_dictSet_ne _ _ h6, dictGet_dictSet_ne _ _ h5, dictGet_dictSet_ne _ _ h4,
      dictGet_dictSet_ne _ _ h3, dictGet_dictSet_ne _ _ h2, dictGet_dictSet_ne _ _ h1]

lemma htmlPhase_get_title (html : String) (doc : NoticeDoc) (out0 : PyDict) :
    dictGet (htmlPhase html doc out0) "title"
      = Option.some (pyOrV (pyGetD out0 "title") (htmlTitle doc)) := by
  simp only [htmlPhase]
  rw [dictGet_dictSet_ne _ _ (show ("raw_html" : String) ≠ "title" by decide),
    dictGet_dictSet_ne _ _ (show ("attachments" : String) ≠ "title" by decide)]
  split
  · rw [dictGet_dictSet_ne _ _ (show ("deadline_at" : String) ≠ "title" by decide),
      dictGet_dictSet_ne _ _ (show ("published_at" : String) ≠ "title" by decide),
      dictGet_dictSet_ne _ _ (show ("description" : String) ≠ "title" by decide),
      dictGet_dictSet_ne _ _ (show ("buyer" : String) ≠ "title" by decide),
      dictGet_dictSet_self]
  · rw [dictGet_dictSet_ne _ _ (show ("cpv" : String) ≠ "title" by decide),
      dictGet_dictSet_ne _ _ (show ("deadline_at" : String) ≠ "title" by decide),
      dictGet_dictSet_ne _ _ (show ("published_at" : String) ≠ "title" by decide),
      dictGet_dictSet_ne _ _ (show ("description" : String) ≠ "title" by decide),
      dictGet_dictSet_ne _ _ (show ("buyer" : String) ≠ "title" by decide),
      dictGet_dictSet_self]

lemma htmlPhase_get_buyer (html : String) (doc : NoticeDoc) (out0 : PyDict) :
    dictGet (htmlPhase html doc out0) "buyer"
      = Option.some (pyOrV (pyGetD out0 "buyer") (optTxtVal doc.buyerSel)) := by
  simp only [htmlPhase]
  rw [dictGet_dictSet_ne _ _ (show ("raw_html" : String) ≠ "buyer" by decide),
    dictGet_dictSet_ne _ _ (show ("attachments" : String) ≠ "buyer" by decide)]
  split
  · rw [dictGet_dictSet_ne _ _ (show ("deadline_at" : String) ≠ "buyer" by decide),
      dictGet_dictSet_ne _ _ (show ("published_at" : String) ≠ "buyer" by decide),
      dictGet_dictSet_ne _ _ (show ("description" : String) ≠ "buyer" by decide),
      dictGet_dictSet_self,
      pyGetD_dictSet_ne _ _ (show ("title" : String) ≠ "buyer" by decide)]
  · rw [dictGet_dictSet_ne _ _ (show ("cpv" : String) ≠ "buyer" by decide),
      dictGet_dictSet_ne _ _ (show ("deadline_at" : String) ≠ "buyer" by decide),
      dictGet_dictSet_ne _ _ (show ("published_at" : String) ≠ "buyer" by decide),
      dictGet_dictSet_ne _ _ (show ("description" : String) ≠ "buyer" by decide),
      dictGet_dictSet_self,
      pyGetD_dictSet_ne _ _ (show ("title" : String) ≠ "buyer" by decide)]

lemma htmlPhase_get_description (html : String) (doc : NoticeDoc) (out0 : PyDict) :
    dictGet (htmlPhase html doc out0) "description"
      = Option.some (pyOrV (pyGetD out0 "description") (optTxtVal doc.descriptionSel)) := by
  simp only [htmlPhase]
  rw [dictGet_dictSet_ne _ _ (show ("raw_html" : String) ≠ "description" by decide),
    dictGet_dictSet_ne _ _ (show ("attachments" : String) ≠ "description" by decide)]
  split
  · rw [dictGet_dictSet_ne _ _ (show ("deadline_at" : String) ≠ "description" by decide),
      dictGet_dictSet_ne _ _ (show ("published_at" : String) ≠ "description" by decide),
      dictGet_dictSet_self,
      pyGetD_dictSet_ne _ _ (show ("buyer" : String) ≠ "description" by decide),
      pyGetD_dictSet_ne _ _ (show ("title" : String) ≠ "description" by decide)]
  · rw [dictGet_dictSet_ne _ _ (show ("cpv" : String) ≠ "description" by decide),
      dictGet_dictSet_ne _ _ (show ("deadline_at" : String) ≠ "description" by decide),
      dictGet_dictSet_ne _ _ (show ("published_at" : String) ≠ "description" by decide),
      dictGet_dictSet_self,
      pyGetD_dictSet_ne _ _ (show ("buyer" : String) ≠ "description" by decide),
      pyGetD_dictSet_ne _ _ (show ("title" : String) ≠ "description" by decide)]

lemma htmlPhase_get_published (html : String) (doc : NoticeDoc) (out0 : PyDict) :
    dictGet (htmlPhase html doc out0) "published_at"
      = Option.some (pyOrV (pyGetD out0 "published_at")
          (htmlTime doc.publishedTime doc.publishedSel)) := by
  simp only [htmlPhase]
  rw [dictGet_dictSet_ne _ _ (show ("raw_html" : String) ≠ "published_at" by decide),
    dictGet_dictSet_ne _ _ (show ("attachments" : String) ≠ "published_at" by decide)]
  split
  · rw [dictGet_dictSet_ne _ _ (show ("deadline_at" : String) ≠ "published_at" by decide),
      dictGet_dictSet_self,
      pyGetD_dictSet_ne _ _ (show ("description" : String) ≠ "published_at" by decide),
      pyGetD_dictSet_ne _ _ (show ("buyer" : String) ≠ "published_at" by decide),
      pyGetD_dictSet_ne _ _ (show ("title" : String) ≠ "published_at" by decide)]
  · rw [dictGet_dictSet_ne _ _ (show ("cpv" : String) ≠ "published_at" by decide),
      dictGet_dictSet_ne _ _ (show ("deadline_at" : String) ≠ "published_at" by decide),
      dictGet_dictSet_self,
      pyGetD_dictSet_ne _ _ (show ("description" : String) ≠ "published_at" by decide),
      pyGetD_dictSet_ne _ _ (show ("buyer" : String) ≠ "published_at" by decide),
      pyGetD_dictSet_ne _ _ (show ("title" : String) ≠ "published_at" by decide)]

lemma htmlPhase_get_deadline (html : String) (doc : NoticeDoc) (out0 : PyDict) :
    dictGet (htmlPhase html doc out0) "deadline_at"
      = Option.some (pyOrV (pyGetD out0 "deadline_at")
          (htmlTime doc.deadlineTime doc.deadlineSel)) := by
  simp only [htmlPhase]
  rw [dictGet_dictSet_ne _ _ (show ("raw_html" : String) ≠ "deadline_at" by decide),
    dictGet_dictSet_ne _ _ (show ("attachments" : String) ≠ "deadline_at" by decide)]
  split
  · rw [dictGet_dictSet_self,
      pyGetD_dictSet_ne _ _ (show ("published_at" : String) ≠ "deadline_at" by decide),
      pyGetD_dictSet_ne _ _ (show ("description" : String) ≠ "deadline_at" by decide),
      pyGetD_dictSet_ne _ _ (show ("buyer" : String) ≠ "deadline_at" by decide),
      pyGetD_dictSet_ne _ _ (show ("title" : String) ≠ "deadline_at" by decide)]
  · rw [dictGet_dictSet_ne _ _ (show ("cpv" : String) ≠ "deadline_at" by decide),
      dictGet_dictSet_self,
      pyGetD_dictSet_ne _ _ (show ("published_at" : String) ≠ "deadline_at" by decide),
      pyGetD_dictSet_ne _ _ (show ("description" : String) ≠ "deadline_at" by decide),
      pyGetD_dictSet_ne _ _ (show ("buyer" : String) ≠ "deadline_at" by decide),
      pyGetD_dictSet_ne _ _ (show ("title" : String) ≠ "deadline_at" by decide)]

lemma htmlPhase_get_cpv (html : String) (doc : NoticeDoc) (out0 : PyDict) :
    dictGet (htmlPhase html doc out0) "cpv"
      = Option.some (if pyTruthy (pyGetD out0 "cpv") then pyGetD out0 "cpv"
          else PyVal.list (doc.cpvTags.map PyVal.str)) := by
  simp only [htmlPhase]
  rw [dictGet_dictSet_ne _ _ (show ("raw_html" : String) ≠ "cpv" by decide),
    dictGet_dictSet_ne _ _ (show ("attachments" : String) ≠ "cpv" by decide),
    pyGetD_dictSet_ne _ _ (show ("deadline_at" : String) ≠ "cpv" by decide),
    pyGetD_dictSet_ne _ _ (show ("published_at" : String) ≠ "cpv" by decide),
    pyGetD_dictSet_ne _ _ (show ("description" : String) ≠ "cpv" by decide),
    pyGetD_dictSet_ne _ _ (show ("buyer" : String) ≠ "cpv" by decide),
    pyGetD_dictSet_ne _ _ (show ("title" : String) ≠ "cpv" by decide)]
  by_cases hc : pyTruthy (pyGetD out0 "cpv") = true
  · rw [if_pos hc, if_pos hc,
      dictGet_dictSet_ne _ _ (show ("deadline_at" : String) ≠ "cpv" by decide),
      dictGet_dictSet_ne _ _ (show ("published_at" : String) ≠ "cpv" by decide),
      dictGet_dictSet_ne _ _ (show ("description" : String) ≠ "cpv" by decide),
      dictGet_dictSet_ne _ _ (show ("buyer" : String) ≠ "cpv" by decide),
      dictGet_dictSet_ne _ _ (show ("title" : String) ≠ "cpv" by decide)]
    exact dictGet_of_pyTruthy hc
  · rw [if_neg hc, if_neg hc, dictGet_dictSet_self]

lemma htmlPhase_get_raw (html : String) (doc : NoticeDoc) (out0 : PyDict) :
    dictGet (htmlPhase html doc out0) "raw_html"
      = Option.some (PyVal.str (pySlice (doc.bodyText.getD html) 200000)) := by
  simp only [htmlPhase]
  rw [dictGet_dictSet_self]

lemma pySlice_length_le (s : String) (n : Nat) : (pySlice s n).length ≤ n := by
  unfold pySlice
  rw [String.length_mk, List.length_take]
  exact min_le_left _ _

lemma ldMerge_append_none (bs1 bs2 : List (Option PyVal)) (d : PyDict) :
    ldMerge (bs1 ++ Option.none :: bs2) d = ldMerge (bs1 ++ bs2) d := by
  unfold ldMerge
  rw [List.foldl_append, List.foldl_append]
  rfl

lemma source_url_of_no_override (html : String) (doc : NoticeDoc) (url : String)
    (h : ∀ b ∈ doc.ldBlocks, ∀ kvs, b = Option.some (PyVal.dict kvs) →
      ∀ v, ("source_url", v) ∉ kvs) :
    dictGet (parse_notice html doc url) "source_url" = Option.some (PyVal.str url) := by
  unfold parse_notice
  rw [htmlPhase_get_stable html doc (ldOut doc url) (by decide) (by decide) (by decide)
    (by decide) (by decide) (by decide) (by decide) (by decide)]
  unfold ldOut
  rw [dictGet_ldMerge_no_key h]
  rfl

/-- C1 (amended): parse_notice initializes source_url to the input URL and
no later phase changes it, so whenever no successfully parsed dict-shaped
structured-data block carries a source_url key, the returned source_url is
exactly the input URL, for every HTML input including the empty page.  A
dict-shaped block with a source_url key overwrites it, which is what the
counterexample exhibits. -/
theorem C1_source_url (html : String) (doc : NoticeDoc) (url : String)
    (h : ∀ b ∈ doc.ldBlocks, ∀ kvs, b = Option.some (PyVal.dict kvs) →
      ∀ v, ("source_url", v) ∉ kvs) :
    getStr (parse_notice html doc url) "source_url" = Option.some url := by
  unfold getStr
  rw [source_url_of_no_override html doc url h]

/-- Witness for C1: empty page, no structured-data blocks. -/
theorem C1_source_url_witness :
    getStr (parse_notice "" {} "https://doffin.no/notices/1") "source_url"
      = Option.some "https://doffin.no/notices/1" :=
  C1_source_url "" {} "https://doffin.no/notices/1" (by intro b hb; simp at hb)

/-- A page whose structured-data block carries a source_url key. -/
def c1Doc : NoticeDoc :=
  { ldBlocks := [Option.some (PyVal.dict [("source_url", PyVal.str "https://evil.example/")])] }

/-- Counterexample for C1 as stated: the JSON-LD merge runs after the
source_url initialization and update-merges every key of a dict-shaped
block, so a block with a source_url key overwrites the input URL. -/
theorem C1_counterexample :
    getStr (parse_notice "" c1Doc "https://doffin.no/notices/1") "source_url"
        = Option.some "https://evil.example/" ∧
    (Option.some "https://evil.example/" : Option String)
        ≠ Option.some "https://doffin.no/notices/1" := by
  decide

/-- C3: for each of title, buyer, description, published_at, deadline_at and
cpv, the final value is the structured-data value whenever that value is
truthy after the JSON-LD merge, and the HTML-derived cascade value otherwise
(pyOrV picks its first operand exactly when truthy, and the cpv branch keeps
the merged value exactly when truthy). -/
theorem C3_structured_precedence (html : String) (doc : NoticeDoc) (url : String) :
    dictGet (parse_notice html doc url) "title"
      = Option.some (pyOrV (pyGetD (ldOut doc url) "title") (htmlTitle doc)) ∧
    dictGet (parse_notice html doc url) "buyer"
      = Option.some (pyOrV (pyGetD (ldOut doc url) "buyer") (optTxtVal doc.buyerSel)) ∧
    dictGet (parse_notice html doc url) "description"
      = Option.some (pyOrV (pyGetD (ldOut doc url) "description")
          (optTxtVal doc.descriptionSel)) ∧
    dictGet (parse_notice html doc url) "published_at"
      = Option.some (pyOrV (pyGetD (ldOut doc url) "published_at")
          (htmlTime doc.publishedTime doc.publishedSel)) ∧
    dictGet (parse_notice html doc url) "deadline_at"
      = Option.some (pyOrV (pyGetD (ldOut doc url) "deadline_at")
          (htmlTime doc.deadlineTime doc.deadlineSel)) ∧
    dictGet (parse_notice html doc url) "cpv"
      = Option.some (if pyTruthy (pyGetD (ldOut doc url) "cpv")
          then pyGetD (ldOut doc url) "cpv"
          else PyVal.list (doc.cpvTags.map PyVal.str)) := by
  unfold parse_notice
  exact ⟨htmlPhase_get_title html doc (ldOut doc url),
    htmlPhase_get_buyer html doc (ldOut doc url),
    htmlPhase_get_description html doc (ldOut doc url),
    htmlPhase_get_published html doc (ldOut doc url),
    htmlPhase_get_deadline html doc (ldOut doc url),
    htmlPhase_get_cpv html doc (ldOut doc url)⟩

/-- C6: a structured-data block that fails to parse is skipped at the point
of occurrence with no effect on the result, blocks around it being processed
as if it were absent; and when every block fails, HTML-derived values still
populate the result (title from the HTML cascade, raw content captured). -/
theorem C6_failed_block (html : String) (doc : NoticeDoc) (url : String)
    (bs1 bs2 : List (Option PyVal)) (h : doc.ldBlocks = bs1 ++ Option.none :: bs2) :
    parse_notice html doc url
      = parse_notice html { doc with ldBlocks := bs1 ++ bs2 } url ∧
    ((∀ b ∈ doc.ldBlocks, b = Option.none) →
      dictGet (parse_notice html doc url) "title" = Option.some (htmlTitle doc) ∧
      dictGet (parse_notice html doc url) "raw_html"
        = Option.some (PyVal.str (pySlice (doc.bodyText.getD html) 200000))) := by
  constructor
  · unfold parse_notice
    have hld : ldOut doc url = ldOut { doc with ldBlocks := bs1 ++ bs2 } url := by
      unfold ldOut
      simp only [h]
      exact ldMerge_append_none bs1 bs2 _
    calc htmlPhase html doc (ldOut doc url)
        = htmlPhase html doc (ldOut { doc with ldBlocks := bs1 ++ bs2 } url) := by rw [hld]
      _ = htmlPhase html { doc with ldBlocks := bs1 ++ bs2 }
            (ldOut { doc with ldBlocks := bs1 ++ bs2 } url) := rfl
  · intro hall
    have hld : ldOut doc url = [("source_url", PyVal.str url)] := by
      unfold ldOut
      exact ldMerge_all_none hall _
    constructor
    · unfold parse_notice
      rw [htmlPhase_get_title, hld]
      simp [pyGetD, dictGet, pyOrV, pyTruthy]
    · unfold parse_notice
      exact htmlPhase_get_raw html doc (ldOut doc url)

/-- A page with one good structured-data block followed by one that fails to
parse, for the C6 witness. -/
def c6Doc : NoticeDoc :=
  { ldBlocks := [Option.some (PyVal.dict [("title", PyVal.str "SD")]), Option.none],
    h1 := Option.some "HTML Title" }

/-- Witness for C6: dropping the failing block leaves the result unchanged. -/
theorem C6_failed_block_witness :
    parse_notice "" c6Doc "https://doffin.no/notices/2"
      = parse_notice ""
          { c6Doc with ldBlocks := [Option.some (PyVal.dict [("title", PyVal.str "SD")])] }
          "https://doffin.no/notices/2" :=
  (C6_failed_block "" c6Doc "https://doffin.no/notices/2"
    [Option.some (PyVal.dict [("title", PyVal.str "SD")])] [] rfl).1

/-- C8: the raw_html field of the result is the body text when a body
element exists, else the raw input HTML, character-truncated to 200000, and
its length never exceeds 200000. -/
theorem C8_raw_truncation (html : String) (doc : NoticeDoc) (url : String) :
    dictGet (parse_notice html doc url) "raw_html"
      = Option.some (PyVal.str (pySlice (doc.bodyText.getD html) 200000)) ∧
    (pySlice (doc.bodyText.getD html) 200000).length ≤ 200000 := by
  constructor
  · unfold parse_notice
    exact htmlPhase_get_raw html doc (ldOut doc url)
  · exact pySlice_length_le _ _

/-! ## Fetcher: fetch

One HTTP attempt either yields a status and body or fails at the network
level.  raise_for_status turns any non-2xx status into a raised error, and
the retry decorator (stop after 3 attempts, exponential backoff) reruns the
body until an attempt returns, surfacing the failure of the last attempt
when all are exhausted.  Backoff delays only affect timing and are not
modelled. -/

inductive FetchFailure where
  | httpStatus (code : Nat) (body : String)
  | network
deriving DecidableEq

inductive Resp where
  | status (code : Nat) (body : String)
  | network
deriving DecidableEq

/-- A 2xx status, the success predicate of raise_for_status. -/
def is2xx (c : Nat) : Bool := 200 ≤ c && c < 300

/-- One attempt of the decorated body: the response text on 2xx, an error
otherwise. -/
def attemptOnce : Resp → Except FetchFailure String
  | Resp.status c b =>
      if is2xx c then Except.ok b else Except.error (FetchFailure.httpStatus c b)
  | Resp.network => Except.error FetchFailure.network

/-- The retry loop: with one attempt remaining the outcome of that attempt
is returned as is (the last failure is re-raised), otherwise a failure moves
on to the next attempt. -/
def retryLoop (responses : Nat → Resp) : Nat → Nat → Except FetchFailure String
  | _, 0 => Except.error FetchFailure.network
  | i, 1 => attemptOnce (responses i)
  | i, m + 2 =>
      match attemptOnce (responses i) with
      | Except.ok b => Except.ok b
      | Except.error _ => retryLoop responses (i + 1) (m + 1)

/-- fetch against a sequence of per-attempt responses: at most 3 attempts. -/
def fetch (responses : Nat → Resp) : Except FetchFailure String :=
  retryLoop responses 0 3

/-- C4: fetch returns the body of the first 2xx attempt as soon as one of
the at most 3 attempts succeeds; every non-2xx status is an attempt failure;
and fetch fails only when all 3 attempts fail, surfacing the failure of the
last attempt. -/
theorem C4_fetch_retry (responses : Nat → Resp) :
    (∀ b i, i < 3 → attemptOnce (responses i) = Except.ok b →
      (∀ j, j < i → ∃ e, attemptOnce (responses j) = Except.error e) →
      fetch responses = Except.ok b) ∧
    (∀ c b, is2xx c = false →
      attemptOnce (Resp.status c b) = Except.error (FetchFailure.httpStatus c b)) ∧
    (∀ e, fetch responses = Except.error e →
      (∀ i, i < 3 → ∃ x, attemptOnce (responses i) = Except.error x) ∧
      attemptOnce (responses 2) = Except.error e) ∧
    ((∀ i, i < 3 → ∃ x, attemptOnce (responses i) = Except.error x) →
      ∃ e, fetch responses = Except.error e ∧ attemptOnce (responses 2) = Except.error e) := by
  refine ⟨?_, ?_, ?_, ?_⟩
  · intro b i hi hok hprev
    interval_cases i
    · show retryLoop responses 0 3 = Except.ok b
      unfold retryLoop
      rw [hok]
    · obtain ⟨e0, he0⟩ := hprev 0 (by omega)
      show retryLoop responses 0 3 = Except.ok b
      unfold retryLoop
      rw [he0]
      unfold retryLoop
      rw [hok]
    · obtain ⟨e0, he0⟩ := hprev 0 (by omega)
      obtain ⟨e1, he1⟩ := hprev 1 (by omega)
      show retryLoop responses 0 3 = Except.ok b
      unfold retryLoop
      rw [he0]
      unfold retryLoop
      rw [he1]
      unfold retryLoop
      exact hok
  · intro c b hc
    simp [attemptOnce, hc]
  · intro e he
    have h0 : retryLoop responses 0 3 = Except.error e := he
    cases ha0 : attemptOnce (responses 0) with
    | ok b0 =>
      exfalso
      unfold retryLoop at h0
      rw [ha0] at h0
      exact Except.noConfusion h0
    | error e0 =>
      unfold retryLoop at h0
      rw [ha0] at h0
      cases ha1 : attemptOnce (responses 1) with
      | ok b1 =>
        exfalso
        unfold retryLoop at h0
        rw [ha1] at h0
        exact Except.noConfusion h0
      | error e1 =>
        unfold retryLoop at h0
        rw [ha1] at h0
        unfold retryLoop at h0
        refine ⟨?_, h0⟩
        intro i hi
        interval_cases i
        · exact ⟨e0, ha0⟩
        · exact ⟨e1, ha1⟩
        · exact ⟨e, h0⟩
  · intro hall
    obtain ⟨e0, he0⟩ := hall 0 (by omega)
    obtain ⟨e1, he1⟩ := hall 1 (by omega)
    obtain ⟨e2, he2⟩ := hall 2 (by omega)
    refine ⟨e2, ?_, he2⟩
    show retryLoop responses 0 3 = Except.error e2
    unfold retryLoop
    rw [he0]
    unfold retryLoop
    rw [he1]
    unfold retryLoop
    exact he2

/-- A response sequence failing once with a 500 and then succeeding. -/
def c4Responses : Nat → Resp
  | 0 => Resp.status 500 "server error"
  | _ => Resp.status 200 "ok"

/-- Witness for C4: one 500 followed by a 200 yields the 200 body. -/
theorem C4_fetch_retry_witness : fetch c4Responses = Except.ok "ok" := by
  have h := (C4_fetch_retry c4Responses).1 "ok" 1 (by omega) rfl
  exact h (by intro j hj; interval_cases j; exact ⟨FetchFailure.httpStatus 500 "server error", rfl⟩)

/-! ## Tool operation get_notice

The tool takes optional notice_id and url strings (absent arguments default
to None, and Python truthiness also treats the empty string as absent),
guards on both being falsy before any fetch, then fetches one target URL and
parses the page.  The network is a map from URL to the per-attempt response
sequence consumed by fetch, the HTML parser a map from page text to its
parsed document; the first component of the result lists the URLs fetched,
in order. -/

inductive ToolError where
  | invalidArgument (msg : String)
  | fetchError (e : FetchFailure)

/-- Python f-string rendering of an optional string. -/
def pyStrOfOpt : Option String → String
  | Option.some s => s
  | Option.none => "None"

/-- The target URL of get_notice: url when truthy, else the synthesized
notices path. -/
def noticeTarget (notice_id url : Option String) : String :=
  match url with
  | Option.some u => if u ≠ "" then u else BASE ++ "/notices/" ++ pyStrOfOpt notice_id
  | Option.none => BASE ++ "/notices/" ++ pyStrOfOpt notice_id

/-- get_notice: the InvalidArgument guard, one fetch of the target URL, and
parse_notice on the fetched page. -/
def get_notice (world : String → Nat → Resp) (parser : String → NoticeDoc)
    (notice_id url : Option String) : List String × Except ToolError PyDict :=
  if pyTruthyOptStr notice_id = false ∧ pyTruthyOptStr url = false then
    ([], Except.error (ToolError.invalidArgument "Either notice_id or url must be provided"))
  else
    match fetch (world (noticeTarget notice_id url)) with
    | Except.error e =>
        ([noticeTarget notice_id url], Except.error (ToolError.fetchError e))
    | Except.ok html =>
        ([noticeTarget notice_id url],
          Except.ok (parse_notice html (parser html) (noticeTarget notice_id url)))

lemma get_notice_not_invalid {world : String → Nat → Resp}
    {parser : String → NoticeDoc} {notice_id url : Option String}
    (h : ¬ (pyTruthyOptStr notice_id = false ∧ pyTruthyOptStr url = false)) :
    (get_notice world parser notice_id url).1 = [noticeTarget notice_id url] ∧
    (∀ html, fetch (world (noticeTarget notice_id url)) = Except.ok html →
      (get_notice world parser notice_id url).2
        = Except.ok (parse_notice html (parser html) (noticeTarget notice_id url))) := by
  unfold get_notice
  rw [if_neg h]
  constructor
  · cases hf : fetch (world (noticeTarget notice_id url)) <;> rfl
  · intro html hf
    rw [hf]

/-- C7: with both arguments absent, get_notice returns the InvalidArgument
failure with an empty fetch trace, for every network and parser (so before
any network call); with only a non-empty notice_id, the single fetched URL
is the synthesized notices path under the site base. -/
theorem C7_invalid_argument (world : String → Nat → Resp) (parser : String → NoticeDoc) :
    get_notice world parser Option.none Option.none
      = ([], Except.error
          (ToolError.invalidArgument "Either notice_id or url must be provided")) ∧
    (∀ nid : String, nid ≠ "" →
      (get_notice world parser (Option.some nid) Option.none).1
        = [BASE ++ "/notices/" ++ nid]) := by
  constructor
  · rfl
  · intro nid hnid
    have hcond : ¬ (pyTruthyOptStr (Option.some nid) = false ∧
        pyTruthyOptStr Option.none = false) := by
      intro hc
      apply hnid
      simpa [pyTruthyOptStr] using hc.1
    have ht : noticeTarget (Option.some nid) Option.none = BASE ++ "/notices/" ++ nid := by
      simp [noticeTarget, pyStrOfOpt]
    exact (get_notice_not_invalid hcond).1.trans (by rw [ht])

/-- A trivial network always answering 200 and a parser yielding the empty
document, for the C7 witness. -/
def trivWorld : String → Nat → Resp := fun _ _ => Resp.status 200 ""

/-- Parser for the C7 witness. -/
def trivParser : String → NoticeDoc := fun _ => {}

/-- Witness for C7 with notice_id 42. -/
theorem C7_invalid_argument_witness :
    (get_notice trivWorld trivParser (Option.some "42") Option.none).1
      = [BASE ++ "/notices/" ++ "42"] :=
  (C7_invalid_argument trivWorld trivParser).2 "42" (by decide)

/-- The source_url string of a get_notice result, when the call succeeded. -/
def resultSourceUrl (r : List String × Except ToolError PyDict) : Option String :=
  match r.2 with
  | Except.ok d => getStr d "source_url"
  | Except.error _ => Option.none

/-- C10 (amended): with a non-empty url argument, the explicitly supplied
url is the single fetched URL whatever notice_id holds, the result is
independent of notice_id, and the page is parsed with that url as source
URL; the returned source_url equals it whenever no successfully parsed
dict-shaped structured-data block of the fetched page carries a source_url
key (such a block overwrites it, as the counterexample exhibits). -/
theorem C10_url_precedence (world : String → Nat → Resp) (parser : String → NoticeDoc)
    (nid u : String) (hu : u ≠ "") :
    (get_notice world parser (Option.some nid) (Option.some u)).1 = [u] ∧
    (∀ nid2 : Option String,
      get_notice world parser nid2 (Option.some u)
        = get_notice world parser (Option.some nid) (Option.some u)) ∧
    (∀ html, fetch (world u) = Except.ok html →
      (get_notice world parser (Option.some nid) (Option.some u)).2
        = Except.ok (parse_notice html (parser html) u) ∧
      ((∀ b ∈ (parser html).ldBlocks, ∀ kvs, b = Option.some (PyVal.dict kvs) →
          ∀ v, ("source_url", v) ∉ kvs) →
        getStr (parse_notice html (parser html) u) "source_url" = Option.some u)) := by
  have hcond : ¬ (pyTruthyOptStr (Option.some nid) = false ∧
      pyTruthyOptStr (Option.some u) = false) := by
    intro hc
    apply hu
    simpa [pyTruthyOptStr] using hc.2
  have ht : noticeTarget (Option.some nid) (Option.some u) = u := by
    simp [noticeTarget, hu]
  refine ⟨?_, ?_, ?_⟩
  · exact (get_notice_not_invalid hcond).1.trans (by rw [ht])
  · intro nid2
    have hcond2 : ¬ (pyTruthyOptStr nid2 = false ∧
        pyTruthyOptStr (Option.some u) = false) := by
      intro hc
      apply hu
      simpa [pyTruthyOptStr] using hc.2
    have ht2 : noticeTarget nid2 (Option.some u) = u := by
      simp [noticeTarget, hu]
    unfold get_notice
    rw [if_neg hcond, if_neg hcond2, ht, ht2]
  · intro html hf
    constructor
    · have h2 := (@get_notice_not_invalid world parser (Option.some nid)
        (Option.some u) hcond).2 html (by rw [ht]; exact hf)
      rw [h2, ht]
    · intro hblocks
      unfold getStr
      rw [source_url_of_no_override html (parser html) u hblocks]

/-- Witness for C10: trivial network, empty parsed page. -/
theorem C10_url_precedence_witness :
    (get_notice trivWorld trivParser (Option.some "123")
        (Option.some "https://doffin.no/custom")).1 = ["https://doffin.no/custom"] :=
  (C10_url_precedence trivWorld trivParser "123" "https://doffin.no/custom" (by decide)).1

/-- A network always answering 200 with a fixed page. -/
def c10World : String → Nat → Resp := fun _ _ => Resp.status 200 "page"

/-- A parser whose document carries a structured-data block with a
source_url key. -/
def c10Parser : String → NoticeDoc := fun _ => c1Doc

/-- Counterexample for C10 as stated: when the fetched page has a
dict-shaped structured-data block with a source_url key, the recorded
source_url is that value and not the supplied url. -/
theorem C10_counterexample :
    resultSourceUrl (get_notice c10World c10Parser (Option.some "123")
        (Option.some "https://doffin.no/custom")) = Option.some "https://evil.example/" ∧
    (Option.some "https://evil.example/" : Option String)
      ≠ Option.some "https://doffin.no/custom" := by
  decide
